import Mathlib

/-!
Verification of the orchestration core of the echo9llama repository.

The definitions below are a shallow embedding of the Go sources
(`src/orchestration/engine.go` and the workflow/routing helpers in the
`orchestration` package).  Go maps are modelled as association lists with
insert-or-replace update, `interface{}` values that the engine only ever
formats or stores are modelled as `String`, timestamps as `Nat`, and the
streaming inference client as an explicit function parameter returning
`Except String α`.  Functions that the source runs for their side effects
additionally return an explicit log (service calls made, tasks dispatched,
errors that were only written to the log sink) so theorems can speak about
those effects.
-/

namespace EchoOrch

/-! ## Data model (src/unnamed/part_006, engine.go) -/

/-- A context item held in agent memory (`ContextItem` in the source).
The `interface{}` value is modelled as `String`, the timestamp as `Nat`,
and the relevance score (always set to `1.0` by the engine) as `ℚ`. -/
structure ContextItem where
  key : String
  value : String
  timestamp : Nat
  relevance : ℚ
deriving Repr, DecidableEq

/-- Mutable per-agent state (`AgentState` in the source).  The
`map[string]interface{}` memory is an association list of strings. -/
structure AgentState where
  memory : List (String × String)
  context : List ContextItem
  goals : List String
  capabilities : List String
  lastInteraction : Nat
deriving Repr, DecidableEq

/-- An orchestration agent (`Agent` in the source).  Of the free-form
`Config` map the engine only ever reads `Config["default_model"]` as a
string, modelled as `configDefaultModel`. -/
structure Agent where
  id : String
  name : String
  description : String
  models : List String
  configDefaultModel : Option String
  type : String
  state : AgentState
deriving Repr, DecidableEq

/-- The parsed `task.Parameters["tool"]` payload (`ToolCall` in the
source): a tool name and a parameter mapping. -/
structure ToolSpec where
  name : String
  params : List (String × String)
deriving Repr, DecidableEq

/-- A task (`Task` in the source).  Of the free-form `Parameters` map the
engine reads `Parameters["tool"]` (modelled as `paramsTool`) and
`Parameters["plugin_name"]` (modelled as `paramsPlugin`). -/
structure Task where
  id : String := ""
  type : String := ""
  input : String := ""
  modelName : String := ""
  agentID : String := ""
  paramsTool : Option ToolSpec := none
  paramsPlugin : Option String := none
deriving Repr, DecidableEq

/-- Result of a completed task (`TaskResult` in the source; metrics are
not relevant to any claim and are omitted). -/
structure TaskResult where
  taskID : String
  output : String
  modelUsed : String
deriving Repr, DecidableEq

/-- Result of a tool call (`ToolResult` in the source; the `interface{}`
output is modelled as `String`). -/
structure ToolResult where
  success : Bool
  output : String
deriving Repr, DecidableEq

/-- Task type constants from the source. -/
def TaskTypeGenerate : String := "generate"

/-- Task type constant `TaskTypeChat` from the source. -/
def TaskTypeChat : String := "chat"

/-- Task type constant `TaskTypeEmbed` from the source. -/
def TaskTypeEmbed : String := "embed"

/-- Task type constant `TaskTypeCustom` from the source. -/
def TaskTypeCustom : String := "custom"

/-! ## Go map update

Go maps are modelled as association lists; `m[k] = v` is an
insert-or-replace that keeps the position of an existing key and appends
a fresh key at the end (a determinization of Go's unordered map). -/

/-- Assignment `m[k] = v` on a Go map modelled as an association list. -/
def mapInsert {α : Type} (m : List (String × α)) (k : String) (v : α) :
    List (String × α) :=
  if m.any (fun kv => kv.1 = k) then
    m.map (fun kv => if kv.1 = k then (k, v) else kv)
  else
    m ++ [(k, v)]

/-! ## Agent state update (engine.go `updateAgentState`, lines 537-562) -/

/-- `updateAgentState` from engine.go: records the key/value pair in
memory, refreshes `LastInteraction`, appends a context item with
relevance `1.0`, and keeps only the last 10 context items. -/
def updateAgentState (st : AgentState) (key value : String) (now : Nat) :
    AgentState :=
  let item : ContextItem :=
    { key := key, value := value, timestamp := now, relevance := 1 }
  let ctx := st.context ++ [item]
  { st with
    memory := mapInsert st.memory key value
    lastInteraction := now
    context := if ctx.length > 10 then ctx.drop (ctx.length - 10) else ctx }

/-- One state-updating operation: the key, value and timestamp passed to
`updateAgentState` by task execution, messaging, or conversation
lifecycle code. -/
def applyUpdates (st : AgentState) (ops : List (String × String × Nat)) :
    AgentState :=
  ops.foldl (fun s op => updateAgentState s op.1 op.2.1 op.2.2) st

/-- The context item produced by one state-updating operation. -/
def mkContextItem (op : String × String × Nat) : ContextItem :=
  { key := op.1, value := op.2.1, timestamp := op.2.2, relevance := 1 }

lemma contextClamp_eq_drop (l : List ContextItem) :
    (if l.length > 10 then l.drop (l.length - 10) else l)
      = l.drop (l.length - 10) := by
  by_cases h : l.length > 10
  · simp [h]
  · have : l.length - 10 = 0 := by omega
    simp [h, this]

lemma updateAgentState_context (st : AgentState) (key value : String)
    (now : Nat) :
    (updateAgentState st key value now).context
      = (st.context ++ [mkContextItem (key, value, now)]).drop
          ((st.context ++ [mkContextItem (key, value, now)]).length - 10) := by
  simp only [updateAgentState, mkContextItem]
  exact contextClamp_eq_drop _

lemma drop_clamp_append (l r : List ContextItem) :
    (l.drop (l.length - 10) ++ r).drop
        ((l.drop (l.length - 10) ++ r).length - 10)
      = (l ++ r).drop ((l ++ r).length - 10) := by
  have hsub : l.length - 10 ≤ l.length := Nat.sub_le _ _
  have happ : l.drop (l.length - 10) ++ r = (l ++ r).drop (l.length - 10) := by
    rw [List.drop_append_eq_append_drop]
    have : l.length - 10 - l.length = 0 := by omega
    simp [this]
  rw [happ, List.drop_drop, List.length_drop, List.length_append]
  congr 1
  omega

lemma applyUpdates_context (ops : List (String × String × Nat))
    (st : AgentState) (hstart : st.context.length ≤ 10) :
    (applyUpdates st ops).context
      = (st.context ++ ops.map mkContextItem).drop
          ((st.context ++ ops.map mkContextItem).length - 10) := by
  induction ops generalizing st with
  | nil =>
    have : st.context.length - 10 = 0 := by omega
    simp [applyUpdates, this]
  | cons op rest ih =>
    have hstep : applyUpdates st (op :: rest)
        = applyUpdates (updateAgentState st op.1 op.2.1 op.2.2) rest := rfl
    have hlen : (updateAgentState st op.1 op.2.1 op.2.2).context.length ≤ 10 := by
      rw [updateAgentState_context, List.length_drop]
      omega
    rw [hstep, ih _ hlen, updateAgentState_context]
    have := drop_clamp_append (st.context ++ [mkContextItem op])
      (rest.map mkContextItem)
    simpa [List.append_assoc] using this

/-- Claim C3: starting from an agent whose context has at most 10 entries
(as initialized by the engine), any sequence of state-updating operations
leaves the context with at most 10 entries, and the surviving entries are
a suffix of the full insertion-ordered history: the oldest entries are the
ones evicted and the insertion order of the rest is preserved. -/
theorem agentContext_bounded_fifo (st : AgentState)
    (ops : List (String × String × Nat)) (hstart : st.context.length ≤ 10) :
    (applyUpdates st ops).context.length ≤ 10
      ∧ (applyUpdates st ops).context <:+ (st.context ++ ops.map mkContextItem) := by
  have h := applyUpdates_context ops st hstart
  constructor
  · rw [h, List.length_drop]
    omega
  · rw [h]
    exact List.drop_suffix _ _

/-- A fresh agent state as initialized by the engine. -/
def sampleState : AgentState :=
  { memory := [], context := [], goals := [], capabilities := [],
    lastInteraction := 0 }

/-- Eleven state-updating operations, for exercising context eviction. -/
def sampleOps : List (String × String × Nat) :=
  (List.range 11).map (fun i => (toString i, "v", i))

/-- Witness for C3: eleven updates starting from the empty context leave
at most ten items, a suffix of the insertion-ordered history. -/
theorem agentContext_bounded_fifo_witness :
    (applyUpdates sampleState sampleOps).context.length ≤ 10
      ∧ (applyUpdates sampleState sampleOps).context
          <:+ (sampleState.context ++ sampleOps.map mkContextItem) :=
  agentContext_bounded_fifo sampleState sampleOps (by decide)

/-! ## Bulk task execution (engine.go `ExecuteTasks`, lines 175-216)

The per-task execution primitive `e.ExecuteTask(ctx, t, agent)` is
abstracted as a function `exec : Task → Except String TaskResult`
(it either returns a result or an error, never both nil and never both
set).  The sequential path is a direct fold; the concurrent path is
parameterized by the order in which the goroutines complete, an arbitrary
permutation of the task indices. -/

/-- Sequential branch of `ExecuteTasks`: execute in list order, stop at
the first failure and return the results collected so far together with
the error.  Entries are `Option` values mirroring the `[]*TaskResult`
slice. -/
def executeTasksSeq (exec : Task → Except String TaskResult) :
    List Task → List (Option TaskResult) × Option String
  | [] => ([], none)
  | t :: ts =>
    match exec t with
    | .error e => ([], some e)
    | .ok r =>
      let rest := executeTasksSeq exec ts
      (some r :: rest.1, rest.2)

/-- The tasks actually handed to `ExecuteTask` by the sequential branch,
in dispatch order. -/
def dispatchedSeq (exec : Task → Except String TaskResult) :
    List Task → List Task
  | [] => []
  | t :: ts =>
    match exec t with
    | .error _ => [t]
    | .ok _ => t :: dispatchedSeq exec ts

/-- One goroutine completion in the concurrent branch of `ExecuteTasks`:
under the shared mutex, record the first error and store a non-nil result
at the task's own index. -/
def concStep (exec : Task → Except String TaskResult) (tasks : List Task)
    (st : List (Option TaskResult) × Option String) (idx : Nat) :
    List (Option TaskResult) × Option String :=
  match tasks[idx]? with
  | none => st
  | some t =>
    match exec t with
    | .error e => (st.1, match st.2 with | some e0 => some e0 | none => some e)
    | .ok r => (st.1.set idx (some r), st.2)

/-- Concurrent branch of `ExecuteTasks`: a result slice of the input
length, filled in by goroutine completions in the order `order` (a
permutation of the indices), plus the first error captured under the
mutex. -/
def executeTasksConc (exec : Task → Except String TaskResult)
    (tasks : List Task) (order : List Nat) :
    List (Option TaskResult) × Option String :=
  order.foldl (concStep exec tasks) (List.replicate tasks.length none, none)

/-- The error of the first failing task in completion order, if any. -/
def firstErrorConc (exec : Task → Except String TaskResult)
    (tasks : List Task) : List Nat → Option String
  | [] => none
  | idx :: rest =>
    match tasks[idx]? with
    | none => firstErrorConc exec tasks rest
    | some t =>
      match exec t with
      | .error e => some e
      | .ok _ => firstErrorConc exec tasks rest

/-- The tasks handed to `ExecuteTask` by the concurrent branch, in
completion order. -/
def dispatchedConc (tasks : List Task) (order : List Nat) : List Task :=
  order.filterMap fun idx => tasks[idx]?

/-- `ExecuteTasks` from engine.go: dispatch to the sequential or the
concurrent branch.  `order` is the completion order of the concurrent
goroutines and is ignored by the sequential branch. -/
def executeTasks (exec : Task → Except String TaskResult)
    (tasks : List Task) (agent : Agent) (sequential : Bool)
    (order : List Nat) : List (Option TaskResult) × Option String :=
  let _ := agent
  if sequential then executeTasksSeq exec tasks
  else executeTasksConc exec tasks order

/-- Claim C1, part 1: sequential execution with a failing task at
position `pre.length` returns exactly the results collected before it and
that task's error, and dispatches no later task. -/
lemma executeTasksSeq_fail (exec : Task → Except String TaskResult)
    (pre : List Task) (t : Task) (post : List Task) (e : String)
    (hpre : ∀ x ∈ pre, (exec x).toOption.isSome = true)
    (ht : exec t = .error e) :
    executeTasksSeq exec (pre ++ t :: post)
        = (pre.map (fun x => (exec x).toOption), some e)
      ∧ dispatchedSeq exec (pre ++ t :: post) = pre ++ [t] := by
  induction pre with
  | nil =>
    simp [executeTasksSeq, dispatchedSeq, ht]
  | cons x xs ih =>
    have hx : (exec x).toOption.isSome = true := hpre x (by simp)
    obtain ⟨r, hr⟩ : ∃ r, exec x = .ok r := by
      cases h : exec x with
      | error e0 => rw [h] at hx; simp [Except.toOption] at hx
      | ok r => exact ⟨r, rfl⟩
    have ihx := ih (fun y hy => hpre y (by simp [hy]))
    constructor
    · simp only [List.cons_append, executeTasksSeq, hr, List.map_cons]
      simp [Except.toOption, hr, ihx.1]
    · simp only [List.cons_append, dispatchedSeq, hr]
      simpa using ihx.2

/-- Claim C1, part 2: sequential execution with no failing task returns
one result per task in input order and no error, dispatching every
task. -/
lemma executeTasksSeq_ok (exec : Task → Except String TaskResult)
    (tasks : List Task)
    (hall : ∀ x ∈ tasks, (exec x).toOption.isSome = true) :
    executeTasksSeq exec tasks = (tasks.map (fun x => (exec x).toOption), none)
      ∧ dispatchedSeq exec tasks = tasks := by
  induction tasks with
  | nil => simp [executeTasksSeq, dispatchedSeq]
  | cons x xs ih =>
    have hx : (exec x).toOption.isSome = true := hall x (by simp)
    obtain ⟨r, hr⟩ : ∃ r, exec x = .ok r := by
      cases h : exec x with
      | error e0 => rw [h] at hx; simp [Except.toOption] at hx
      | ok r => exact ⟨r, rfl⟩
    have ihx := ih (fun y hy => hall y (by simp [hy]))
    constructor
    · simp only [executeTasksSeq, hr, ihx.1, List.map_cons]
      simp [Except.toOption, hr]
    · simp only [dispatchedSeq, hr, ihx.2]

/-- Claim C1: `ExecuteTasks` with `sequential = true` executes tasks in
list order; if the task at position `i` (0-based, written here as the
task after a prefix `pre` of successful tasks) is the first to fail, the
call returns exactly the `i` results collected before it together with
that task's error, and no task after position `i` is dispatched; if no
task fails, it returns one result per task in input order and no
error. -/
theorem executeTasks_sequential_spec (exec : Task → Except String TaskResult)
    (agent : Agent) (order : List Nat) :
    (∀ pre t post e, (∀ x ∈ pre, (exec x).toOption.isSome = true) →
      exec t = .error e →
      executeTasks exec (pre ++ t :: post) agent true order
          = (pre.map (fun x => (exec x).toOption), some e)
        ∧ dispatchedSeq exec (pre ++ t :: post) = pre ++ [t])
    ∧ (∀ tasks, (∀ x ∈ tasks, (exec x).toOption.isSome = true) →
      executeTasks exec tasks agent true order
          = (tasks.map (fun x => (exec x).toOption), none)
        ∧ dispatchedSeq exec tasks = tasks) := by
  constructor
  · intro pre t post e hpre ht
    simpa [executeTasks] using executeTasksSeq_fail exec pre t post e hpre ht
  · intro tasks hall
    simpa [executeTasks] using executeTasksSeq_ok exec tasks hall

/-- A sample task executor for witnesses: fails exactly on tasks whose id
is `"bad"`. -/
def sampleExec : Task → Except String TaskResult :=
  fun t => if t.id = "bad" then .error "boom"
    else .ok { taskID := t.id, output := "out-" ++ t.id, modelUsed := t.modelName }

/-- A sample agent for witnesses. -/
def sampleAgent : Agent :=
  { id := "a1", name := "alpha", description := "", models := ["m1"],
    configDefaultModel := none, type := "general", state := sampleState }

/-- Witness for C1: over `[t1, bad, t3]` the sequential branch returns
only `t1`'s result plus the error, and never dispatches `t3`. -/
theorem executeTasks_sequential_spec_witness :
    executeTasks sampleExec
        [{ id := "t1" }, { id := "bad" }, { id := "t3" }] sampleAgent true []
        = ([some { taskID := "t1", output := "out-t1", modelUsed := "" }],
            some "boom")
      ∧ dispatchedSeq sampleExec [{ id := "t1" }, { id := "bad" }, { id := "t3" }]
        = [{ id := "t1" }, { id := "bad" }] := by
  have h := (executeTasks_sequential_spec sampleExec sampleAgent []).1
    [{ id := "t1" }] { id := "bad" } [{ id := "t3" }] "boom"
    (by decide) (by rfl)
  simpa using h

lemma concStep_fst_length (exec : Task → Except String TaskResult)
    (tasks : List Task) (st : List (Option TaskResult) × Option String)
    (idx : Nat) : (concStep exec tasks st idx).1.length = st.1.length := by
  rcases hget : tasks[idx]? with _ | t
  · simp [concStep, hget]
  · rcases hx : exec t with e | r
    · simp [concStep, hget, hx]
    · simp [concStep, hget, hx]

lemma conc_foldl_fst_length (exec : Task → Except String TaskResult)
    (tasks : List Task) (order : List Nat) :
    ∀ acc, (order.foldl (concStep exec tasks) acc).1.length = acc.1.length := by
  induction order with
  | nil => intro acc; rfl
  | cons idx rest ih =>
    intro acc
    rw [List.foldl_cons, ih, concStep_fst_length]

lemma conc_foldl_get_not_mem (exec : Task → Except String TaskResult)
    (tasks : List Task) (order : List Nat) (j : Nat) :
    ∀ acc, j ∉ order →
      (order.foldl (concStep exec tasks) acc).1[j]? = acc.1[j]? := by
  induction order with
  | nil => intro acc _; rfl
  | cons idx rest ih =>
    intro acc hj
    have hne : idx ≠ j := fun h => hj (by simp [h])
    have hrest : j ∉ rest := fun h => hj (by simp [h])
    rw [List.foldl_cons, ih _ hrest]
    rcases hget : tasks[idx]? with _ | t
    · simp [concStep, hget]
    · rcases hx : exec t with e | r
      · simp [concStep, hget, hx]
      · simp [concStep, hget, hx, List.getElem?_set_ne hne]

lemma conc_foldl_get_mem (exec : Task → Except String TaskResult)
    (tasks : List Task) (order : List Nat) (j : Nat) (hj : j < tasks.length) :
    ∀ acc, order.Nodup → j ∈ order → acc.1.length = tasks.length →
      acc.1[j]? = some none →
      (order.foldl (concStep exec tasks) acc).1[j]?
        = some ((exec tasks[j]).toOption) := by
  induction order with
  | nil => intro acc _ hmem _ _; simp at hmem
  | cons idx rest ih =>
    intro acc hnd hmem hlen hacc
    rw [List.foldl_cons]
    rcases List.mem_cons.mp hmem with heq | hrest
    · subst heq
      have hnotin : j ∉ rest := (List.nodup_cons.mp hnd).1
      rw [conc_foldl_get_not_mem exec tasks rest j _ hnotin]
      have hget : tasks[j]? = some tasks[j] := List.getElem?_eq_getElem hj
      have hjlen : j < acc.1.length := by omega
      rcases hx : exec tasks[j] with e | r
      · simpa [concStep, hget, hx, Except.toOption] using hacc
      · simp [concStep, hget, hx, Except.toOption,
          List.getElem?_set_self hjlen]
    · have hne : idx ≠ j := by
        intro h
        subst h
        exact (List.nodup_cons.mp hnd).1 hrest
      refine ih _ (List.nodup_cons.mp hnd).2 hrest ?_ ?_
      · rw [concStep_fst_length, hlen]
      · rcases hget : tasks[idx]? with _ | t
        · simpa [concStep, hget] using hacc
        · rcases hx : exec t with e | r
          · simpa [concStep, hget, hx] using hacc
          · simpa [concStep, hget, hx, List.getElem?_set_ne hne] using hacc

lemma conc_foldl_snd (exec : Task → Except String TaskResult)
    (tasks : List Task) (order : List Nat) :
    ∀ acc, (order.foldl (concStep exec tasks) acc).2
      = (match acc.2 with
          | some e0 => some e0
          | none => firstErrorConc exec tasks order) := by
  induction order with
  | nil =>
    intro acc
    rcases hacc : acc.2 with _ | e
    · simp [firstErrorConc, hacc]
    · simp [hacc]
  | cons idx rest ih =>
    intro acc
    rw [List.foldl_cons, ih]
    rcases hget : tasks[idx]? with _ | t
    · simp [concStep, firstErrorConc, hget]
    · rcases hx : exec t with e | r
      · rcases hacc : acc.2 with _ | e0
        · simp [concStep, firstErrorConc, hget, hx, hacc]
        · simp [concStep, firstErrorConc, hget, hx, hacc]
      · simp [concStep, firstErrorConc, hget, hx]

lemma firstErrorConc_eq_none_iff (exec : Task → Except String TaskResult)
    (tasks : List Task) (order : List Nat) :
    firstErrorConc exec tasks order = none
      ↔ ∀ idx ∈ order, ∀ hidx : idx < tasks.length,
          (exec tasks[idx]).toOption.isSome = true := by
  induction order with
  | nil => simp [firstErrorConc]
  | cons idx rest ih =>
    rcases hget : tasks[idx]? with _ | t
    · have hlen : ¬ idx < tasks.length := by
        intro h
        rw [List.getElem?_eq_getElem h] at hget
        exact Option.noConfusion hget
      rw [show firstErrorConc exec tasks (idx :: rest)
          = firstErrorConc exec tasks rest by simp [firstErrorConc, hget], ih]
      constructor
      · intro h i hi hil
        rcases List.mem_cons.mp hi with heq | hr
        · subst heq; exact absurd hil hlen
        · exact h i hr hil
      · intro h i hi hil
        exact h i (List.mem_cons_of_mem _ hi) hil
    · have hlen : idx < tasks.length := by
        by_contra h
        rw [List.getElem?_eq_none (by omega)] at hget
        exact Option.noConfusion hget
      have ht : t = tasks[idx] := by
        rw [List.getElem?_eq_getElem hlen] at hget
        exact (Option.some.inj hget).symm
      rcases hx : exec t with e | r
      · rw [show firstErrorConc exec tasks (idx :: rest)
            = some e by simp [firstErrorConc, hget, hx]]
        constructor
        · intro h; exact Option.noConfusion h
        · intro h
          have h2 := h idx (by simp) hlen
          rw [← ht, hx] at h2
          simp [Except.toOption] at h2
      · rw [show firstErrorConc exec tasks (idx :: rest)
            = firstErrorConc exec tasks rest by simp [firstErrorConc, hget, hx], ih]
        constructor
        · intro h i hi hil
          rcases List.mem_cons.mp hi with heq | hr
          · subst heq
            rw [← ht, hx]
            simp [Except.toOption]
          · exact h i hr hil
        · intro h i hi hil
          exact h i (List.mem_cons_of_mem _ hi) hil

lemma filterMap_range_getElem? {α : Type} (l : List α) :
    (List.range l.length).filterMap (fun i => l[i]?) = l := by
  induction l with
  | nil => simp
  | cons a tl ih =>
    rw [List.length_cons, List.range_succ_eq_map, List.filterMap_cons]
    simp only [List.getElem?_cons_zero]
    rw [List.filterMap_map]
    have : (fun i => (a :: tl)[i]?) ∘ Nat.succ = fun i => tl[i]? := by
      funext i
      simp
    rw [this, ih]

/-- Claim C2: `ExecuteTasks` with `sequential = false` attempts every
task regardless of individual failures (the dispatched multiset is
exactly the input tasks), returns a result slice whose length equals the
number of input tasks in which position `j` holds the `j`-th task's
result exactly when that task succeeded and `none` when it failed, and
surfaces the first error encountered in goroutine completion order
(`order`, an arbitrary permutation of the task indices), or no error
exactly when all tasks succeed. -/
theorem executeTasks_concurrent_spec (exec : Task → Except String TaskResult)
    (tasks : List Task) (agent : Agent) (order : List Nat)
    (hperm : order.Perm (List.range tasks.length)) :
    (executeTasks exec tasks agent false order).1.length = tasks.length
      ∧ (∀ j, ∀ hj : j < tasks.length,
          (executeTasks exec tasks agent false order).1[j]?
            = some ((exec tasks[j]).toOption))
      ∧ (executeTasks exec tasks agent false order).2
          = firstErrorConc exec tasks order
      ∧ ((executeTasks exec tasks agent false order).2 = none
          ↔ ∀ t ∈ tasks, (exec t).toOption.isSome = true)
      ∧ (dispatchedConc tasks order).Perm tasks := by
  have hnodup : order.Nodup := hperm.nodup_iff.mpr (List.nodup_range _)
  have hmem : ∀ i, i ∈ order ↔ i < tasks.length := by
    intro i
    rw [hperm.mem_iff, List.mem_range]
  have hsnd : (executeTasks exec tasks agent false order).2
      = firstErrorConc exec tasks order := by
    simp only [executeTasks, if_neg (Bool.false_ne_true), executeTasksConc]
    exact conc_foldl_snd exec tasks order _
  refine ⟨?_, ?_, hsnd, ?_, ?_⟩
  · simp only [executeTasks, if_neg (Bool.false_ne_true), executeTasksConc]
    rw [conc_foldl_fst_length]
    simp
  · intro j hj
    simp only [executeTasks, if_neg (Bool.false_ne_true), executeTasksConc]
    refine conc_foldl_get_mem exec tasks order j hj _ hnodup
      ((hmem j).mpr hj) (by simp) ?_
    simp [List.getElem?_replicate, hj]
  · rw [hsnd, firstErrorConc_eq_none_iff]
    constructor
    · intro h t htmem
      obtain ⟨i, hi, rfl⟩ := List.mem_iff_getElem.mp htmem
      exact h i ((hmem i).mpr hi) hi
    · intro h idx _ hidx
      exact h _ (List.getElem_mem hidx)
  · have h1 : dispatchedConc tasks order
        = order.filterMap (fun idx => tasks[idx]?) := rfl
    rw [h1]
    have h2 := hperm.filterMap (fun idx => tasks[idx]?)
    rw [filterMap_range_getElem?] at h2
    exact h2

/-- Sample task list for witnesses: the middle task fails. -/
def sampleTasks : List Task :=
  [{ id := "t1" }, { id := "bad" }, { id := "t3" }]

/-- Witness for C2: over `[t1, bad, t3]` with completion order
`[2, 0, 1]` the concurrent branch yields a 3-length slice with the
failing position unset, the first error in completion order, and a
dispatched multiset equal to the input. -/
theorem executeTasks_concurrent_spec_witness :
    (executeTasks sampleExec sampleTasks sampleAgent false [2, 0, 1]).1.length = 3
      ∧ (executeTasks sampleExec sampleTasks sampleAgent false [2, 0, 1]).1[1]?
          = some none
      ∧ (executeTasks sampleExec sampleTasks sampleAgent false [2, 0, 1]).2
          = firstErrorConc sampleExec sampleTasks [2, 0, 1]
      ∧ (dispatchedConc sampleTasks [2, 0, 1]).Perm sampleTasks := by
  have h := executeTasks_concurrent_spec sampleExec sampleTasks sampleAgent
    [2, 0, 1] (by decide)
  refine ⟨h.1, ?_, h.2.2.1, h.2.2.2.2⟩
  have h1 := h.2.1 1 (by decide)
  rw [h1]
  rfl

/-! ## Inference-backed task kinds (engine.go lines 283-398)

The streaming Ollama client calls are modelled as explicit function
parameters `gen`, `chatF`, `embedF` mapping a model name and an input to
either an error or the fully accumulated streamed output.  Each embedding
additionally returns the list of `(model, input)` service calls it made,
so "no inference-service call is made" is the statement that the log is
empty. -/

/-- Effective model resolution shared by the generate/chat/embed handlers:
`task.ModelName`, falling back to `agent.Models[0]` when unset. -/
def resolveModelName (taskModelName : String) (models : List String) :
    String :=
  if taskModelName = "" ∧ models ≠ [] then models.headD "" else taskModelName

/-- `executeGenerateTask` from engine.go, with a call log. -/
def executeGenerateTask (gen : String → String → Except String String)
    (task : Task) (agent : Agent) :
    Except String TaskResult × List (String × String) :=
  let modelName := resolveModelName task.modelName agent.models
  if modelName = "" then
    (.error "no model specified for generate task", [])
  else
    match gen modelName task.input with
    | .error e => (.error e, [(modelName, task.input)])
    | .ok output =>
      (.ok { taskID := task.id, output := output, modelUsed := modelName },
        [(modelName, task.input)])

/-- `executeChatTask` from engine.go: the single user message holds
`task.Input`; the streamed message contents are accumulated by the
client model `chatF`. -/
def executeChatTask (chatF : String → String → Except String String)
    (task : Task) (agent : Agent) :
    Except String TaskResult × List (String × String) :=
  let modelName := resolveModelName task.modelName agent.models
  if modelName = "" then
    (.error "no model specified for chat task", [])
  else
    match chatF modelName task.input with
    | .error e => (.error e, [(modelName, task.input)])
    | .ok output =>
      (.ok { taskID := task.id, output := output, modelUsed := modelName },
        [(modelName, task.input)])

/-- `executeEmbedTask` from engine.go: the embedding vector only shows up
through its dimension in the textual output. -/
def executeEmbedTask (embedF : String → String → Except String (List Int))
    (task : Task) (agent : Agent) :
    Except String TaskResult × List (String × String) :=
  let modelName := resolveModelName task.modelName agent.models
  if modelName = "" then
    (.error "no model specified for embed task", [])
  else
    match embedF modelName task.input with
    | .error e => (.error e, [(modelName, task.input)])
    | .ok emb =>
      (.ok { taskID := task.id,
             output := "Embedding generated with dimension "
               ++ toString emb.length,
             modelUsed := modelName },
        [(modelName, task.input)])

/-- Claim C4: for generate, chat and embed tasks the effective model name
is `task.ModelName` when non-empty, otherwise the agent's first
configured model; when neither yields a non-empty name the task fails
with a "no model specified" error and no inference-service call is made
(empty call log); when a model resolves, every service call carries
exactly that model name. -/
theorem modelResolution_spec (gen chatF : String → String → Except String String)
    (embedF : String → String → Except String (List Int))
    (task : Task) (agent : Agent) :
    (task.modelName ≠ "" →
        resolveModelName task.modelName agent.models = task.modelName)
      ∧ (task.modelName = "" →
          resolveModelName task.modelName agent.models = agent.models.headD "")
      ∧ (resolveModelName task.modelName agent.models = "" →
          executeGenerateTask gen task agent
              = (.error "no model specified for generate task", [])
            ∧ executeChatTask chatF task agent
              = (.error "no model specified for chat task", [])
            ∧ executeEmbedTask embedF task agent
              = (.error "no model specified for embed task", []))
      ∧ (resolveModelName task.modelName agent.models ≠ "" →
          (executeGenerateTask gen task agent).2
              = [(resolveModelName task.modelName agent.models, task.input)]
            ∧ (executeChatTask chatF task agent).2
              = [(resolveModelName task.modelName agent.models, task.input)]
            ∧ (executeEmbedTask embedF task agent).2
              = [(resolveModelName task.modelName agent.models, task.input)]) := by
  refine ⟨?_, ?_, ?_, ?_⟩
  · intro h
    simp [resolveModelName, h]
  · intro h
    by_cases hm : agent.models = []
    · simp [resolveModelName, h, hm]
    · simp [resolveModelName, h, hm]
  · intro h
    refine ⟨?_, ?_, ?_⟩ <;> simp [executeGenerateTask, executeChatTask,
      executeEmbedTask, h]
  · intro h
    refine ⟨?_, ?_, ?_⟩
    · unfold executeGenerateTask
      rw [if_neg h]
      cases gen (resolveModelName task.modelName agent.models) task.input <;> rfl
    · unfold executeChatTask
      rw [if_neg h]
      cases chatF (resolveModelName task.modelName agent.models) task.input <;> rfl
    · unfold executeEmbedTask
      rw [if_neg h]
      cases embedF (resolveModelName task.modelName agent.models) task.input <;> rfl

/-- A sample inference client for witnesses: always succeeds. -/
def sampleGen : String → String → Except String String :=
  fun model input => .ok ("reply-" ++ model ++ "-" ++ input)

/-- A sample embedding client for witnesses: a 3-dimensional vector. -/
def sampleEmbed : String → String → Except String (List Int) :=
  fun _ _ => .ok [1, 2, 3]

/-- Witness for C4: a task with no model against an agent with no models
fails with "no model specified" and makes no call; with a model set, the
call log carries it. -/
theorem modelResolution_spec_witness :
    executeGenerateTask sampleGen { id := "t", input := "hi" }
        { id := "a", name := "", description := "", models := [],
          configDefaultModel := none, type := "", state := sampleState }
      = (.error "no model specified for generate task", [])
      ∧ (executeGenerateTask sampleGen { id := "t", input := "hi", modelName := "m7" }
          sampleAgent).2 = [("m7", "hi")] := by
  constructor
  · exact (modelResolution_spec sampleGen sampleGen sampleEmbed
      { id := "t", input := "hi" }
      { id := "a", name := "", description := "", models := [],
        configDefaultModel := none, type := "", state := sampleState }).2.2.1
      (by decide) |>.1
  · exact (modelResolution_spec sampleGen sampleGen sampleEmbed
      { id := "t", input := "hi", modelName := "m7" } sampleAgent).2.2.2
      (by decide) |>.1

/-! ## Claim C5: empty streamed output (engine.go lines 308-322, 352-366)

The spec claims generate/chat tasks fail when the accumulated streamed
output is empty.  The source has no such check: after a successful client
call it returns the `TaskResult` unconditionally, empty output
included. -/

/-- An inference client that succeeds with an empty accumulated output. -/
def emptyOutputGen : String → String → Except String String :=
  fun _ _ => .ok ""

/-- Counterexample to C5: with a client call that succeeds producing no
output, `executeGenerateTask` and `executeChatTask` succeed (returning a
`TaskResult` with empty output) instead of failing as the claim
states. -/
theorem emptyOutput_counterexample :
    (executeGenerateTask emptyOutputGen { id := "t", input := "hi", modelName := "m" }
        sampleAgent).1
      = .ok { taskID := "t", output := "", modelUsed := "m" }
      ∧ (executeChatTask emptyOutputGen { id := "t", input := "hi", modelName := "m" }
          sampleAgent).1
        = .ok { taskID := "t", output := "", modelUsed := "m" } := by
  constructor <;> rfl

/-- Claim C5 as amended: a generate or chat task with a resolvable model
fails exactly when the inference-service call errors (the error is
surfaced unmodified); when the call succeeds the task succeeds with the
accumulated output, even when that output is empty. -/
theorem generateChat_error_only_spec
    (gen chatF : String → String → Except String String)
    (task : Task) (agent : Agent)
    (h : resolveModelName task.modelName agent.models ≠ "") :
    (executeGenerateTask gen task agent).1
        = (gen (resolveModelName task.modelName agent.models) task.input).map
            (fun out =>
              TaskResult.mk task.id out (resolveModelName task.modelName agent.models))
      ∧ (executeChatTask chatF task agent).1
        = (chatF (resolveModelName task.modelName agent.models) task.input).map
            (fun out =>
              TaskResult.mk task.id out (resolveModelName task.modelName agent.models)) := by
  constructor
  · unfold executeGenerateTask
    rw [if_neg h]
    cases gen (resolveModelName task.modelName agent.models) task.input <;> rfl
  · unfold executeChatTask
    rw [if_neg h]
    cases chatF (resolveModelName task.modelName agent.models) task.input <;> rfl

/-- Witness for the amended C5: a failing client call surfaces its error;
an empty successful call yields a successful empty result. -/
theorem generateChat_error_only_spec_witness :
    (executeGenerateTask (fun _ _ => .error "down")
        { id := "t", input := "hi", modelName := "m" } sampleAgent).1
      = ((.error "down" : Except String String)).map
          (fun out => TaskResult.mk "t" out "m") := by
  exact (generateChat_error_only_spec (fun _ _ => .error "down")
    (fun _ _ => .error "down") { id := "t", input := "hi", modelName := "m" }
    sampleAgent (by decide)).1

/-! ## Tool and plugin tasks (engine.go lines 416-490)

A registered tool is a function from its parameter mapping to a
`ToolResult` or an execution error; a registered plugin is a function
from the task input to a result string (`%v` of the `interface{}` value)
or an execution error — the plugin's parameter mapping argument is
absorbed into the closure.  The registries are name-keyed association
lists. -/

/-- The tool name parsed from `task.Parameters["tool"]` (empty when the
parameter is absent or malformed, matching the zero-valued `ToolCall`). -/
def toolNameOf (task : Task) : String :=
  match task.paramsTool with
  | some tc => tc.name
  | none => ""

/-- The tool parameters parsed from `task.Parameters["tool"]`. -/
def toolArgsOf (task : Task) : List (String × String) :=
  match task.paramsTool with
  | some tc => tc.params
  | none => []

/-- The plugin name parsed from `task.Parameters["plugin_name"]` (empty
when absent). -/
def pluginNameOf (task : Task) : String :=
  match task.paramsPlugin with
  | some s => s
  | none => ""

/-- `executeToolTask` from engine.go: invoke the registered tool, failing
on a tool error and recording the tool use in agent state on success; an
unregistered tool name yields a successful "not available" result. -/
def executeToolTask
    (tools : List (String × (List (String × String) → Except String ToolResult)))
    (task : Task) (agent : Agent) (now : Nat) :
    Except String TaskResult × AgentState :=
  match List.lookup (toolNameOf task) tools with
  | some call =>
    match call (toolArgsOf task) with
    | .error e => (.error ("tool call failed: " ++ e), agent.state)
    | .ok r =>
      (.ok { taskID := task.id,
             output := "Tool '" ++ toolNameOf task
               ++ "' executed successfully: " ++ r.output,
             modelUsed := "" },
        updateAgentState agent.state "tool_use" (toolNameOf task) now)
  | none =>
    (.ok { taskID := task.id,
           output := "Tool '" ++ toolNameOf task ++ "' not available",
           modelUsed := "" },
      agent.state)

/-- `executePluginTask` from engine.go: invoke the registered plugin,
failing on a plugin error and recording the plugin use on success; an
unregistered plugin name yields a successful "not found" result. -/
def executePluginTask
    (plugins : List (String × (String → Except String String)))
    (task : Task) (agent : Agent) (now : Nat) :
    Except String TaskResult × AgentState :=
  match List.lookup (pluginNameOf task) plugins with
  | some pluginExec =>
    match pluginExec task.input with
    | .error e => (.error ("plugin execution failed: " ++ e), agent.state)
    | .ok result =>
      (.ok { taskID := task.id,
             output := "Plugin '" ++ pluginNameOf task ++ "' result: " ++ result,
             modelUsed := "" },
        updateAgentState agent.state "plugin_use" (pluginNameOf task) now)
  | none =>
    (.ok { taskID := task.id,
           output := "Plugin '" ++ pluginNameOf task ++ "' not found",
           modelUsed := "" },
      agent.state)

/-- Claim C6: a tool task naming an unregistered tool, and a plugin task
naming an unregistered plugin, succeed with an output string stating the
capability is unavailable, while an execution error from a registered
tool or plugin fails the task with an error. -/
theorem unknownCapability_soft_spec
    (tools : List (String × (List (String × String) → Except String ToolResult)))
    (plugins : List (String × (String → Except String String)))
    (task : Task) (agent : Agent) (now : Nat) :
    (List.lookup (toolNameOf task) tools = none →
        (executeToolTask tools task agent now).1
          = .ok (TaskResult.mk task.id
              ("Tool '" ++ toolNameOf task ++ "' not available") ""))
      ∧ (List.lookup (pluginNameOf task) plugins = none →
          (executePluginTask plugins task agent now).1
            = .ok (TaskResult.mk task.id
                ("Plugin '" ++ pluginNameOf task ++ "' not found") ""))
      ∧ (∀ call e, List.lookup (toolNameOf task) tools = some call →
          call (toolArgsOf task) = .error e →
          (executeToolTask tools task agent now).1
            = .error ("tool call failed: " ++ e))
      ∧ (∀ pluginExec e, List.lookup (pluginNameOf task) plugins = some pluginExec →
          pluginExec task.input = .error e →
          (executePluginTask plugins task agent now).1
            = .error ("plugin execution failed: " ++ e)) := by
  refine ⟨?_, ?_, ?_, ?_⟩
  · intro h
    simp [executeToolTask, h]
  · intro h
    simp [executePluginTask, h]
  · intro call e hlook hcall
    simp [executeToolTask, hlook, hcall]
  · intro pluginExec e hlook hcall
    simp [executePluginTask, hlook, hcall]

/-- Witness for C6: an unregistered tool name soft-succeeds, a registered
but failing plugin fails. -/
theorem unknownCapability_soft_spec_witness :
    (executeToolTask [] { id := "t", paramsTool := some { name := "calc", params := [] } }
        sampleAgent 0).1
      = .ok { taskID := "t", output := "Tool 'calc' not available", modelUsed := "" }
      ∧ (executePluginTask [("p1", fun _ => .error "crash")]
          { id := "t", input := "x", paramsPlugin := some "p1" } sampleAgent 0).1
        = .error ("plugin execution failed: " ++ "crash") := by
  constructor
  · exact (unknownCapability_soft_spec []
      [("p1", fun _ => .error "crash")]
      { id := "t", paramsTool := some { name := "calc", params := [] } }
      sampleAgent 0).1 (by rfl)
  · exact (unknownCapability_soft_spec []
      [("p1", fun _ => .error "crash")]
      { id := "t", input := "x", paramsPlugin := some "p1" }
      sampleAgent 0).2.2.2 (fun _ => .error "crash") "crash" (by rfl) (by rfl)

/-! ## Model routing (src/unnamed/part_005 `selectBestModel`, lines 57-95)

`strings.ToLower` and `strings.Contains` are modelled on the character
lists of the strings so that everything reduces in the kernel. -/

/-- `strings.ToLower` on the character list. -/
def strToLower (s : String) : String :=
  ⟨s.data.map Char.toLower⟩

/-- Substring containment on character lists (`strings.Contains`). -/
def hasSubstr (pat : List Char) : List Char → Bool
  | [] => pat.isEmpty
  | c :: rest => pat.isPrefixOf (c :: rest) || hasSubstr pat rest

/-- `strings.Contains(strings.ToLower(s), pat)` for an already-lowercase
pattern, as used throughout `selectBestModel`. -/
def containsLower (s pat : String) : Bool :=
  hasSubstr pat.data (strToLower s).data

/-- The `switch taskType` section of `selectBestModel`: the branch result,
`none` when the branch falls through to the default section. -/
def switchModel (agent : Agent) (taskType input : String) : Option String :=
  if taskType = TaskTypeGenerate then
    if containsLower input "code" || containsLower input "function"
        || containsLower input "programming" then
      agent.models.find? (fun m => containsLower m "code")
    else none
  else if taskType = TaskTypeChat then
    agent.models.find? (fun m => containsLower m "llama" && !containsLower m "code")
  else none

/-- The default section of `selectBestModel`: the configured
`default_model` when it is among the agent's models, else the first
configured model. -/
def defaultModelChoice (agent : Agent) : String :=
  match agent.configDefaultModel with
  | some d => if agent.models.contains d then d else agent.models.headD ""
  | none => agent.models.headD ""

/-- `selectBestModel` from src/unnamed/part_005. -/
def selectBestModel (agent : Agent) (taskType input : String) : String :=
  if agent.models = [] then ""
  else
    match switchModel agent taskType input with
    | some m => m
    | none => defaultModelChoice agent

/-- Agent exhibiting the C8 counterexample: a chat task is routed to
`codellama` although the non-code-flavored `mistral` is configured. -/
def agentCE : Agent :=
  { id := "ce", name := "", description := "",
    models := ["codellama", "mistral"], configDefaultModel := none,
    type := "", state := sampleState }

/-- Counterexample to C8: the claim says a chat task selects a configured
model that is not code-flavored, but with models
`["codellama", "mistral"]` the heuristic returns `codellama` — a
code-flavored model — because the chat branch additionally requires the
name to contain "llama" and then falls through to the first model. -/
theorem chatRouting_counterexample :
    selectBestModel agentCE TaskTypeChat "hello" = "codellama"
      ∧ containsLower "codellama" "code" = true
      ∧ "mistral" ∈ agentCE.models
      ∧ containsLower "mistral" "code" = false := by
  refine ⟨by rfl, by rfl, by decide, by rfl⟩

/-- Claim C8 as amended: with at least one configured model, a generate
task whose input mentions "code"/"function"/"programming"
(case-insensitively) selects the first configured model whose name
contains "code"; a chat task selects the first configured model whose
name contains "llama" and not "code"; whenever the matched branch finds
no model (or the task type matches neither branch), the heuristic falls
back to the configured default model if present among the agent's
models, else the first configured model. -/
theorem selectBestModel_spec (agent : Agent) (taskType input : String)
    (hne : agent.models ≠ []) :
    (∀ m, taskType = TaskTypeGenerate →
        (containsLower input "code" || containsLower input "function"
          || containsLower input "programming") = true →
        agent.models.find? (fun x => containsLower x "code") = some m →
        selectBestModel agent taskType input = m)
      ∧ (∀ m, taskType = TaskTypeChat →
          agent.models.find?
              (fun x => containsLower x "llama" && !containsLower x "code")
            = some m →
          selectBestModel agent taskType input = m)
      ∧ (switchModel agent taskType input = none →
          selectBestModel agent taskType input = defaultModelChoice agent) := by
  refine ⟨?_, ?_, ?_⟩
  · intro m htype hkw hfind
    simp [selectBestModel, switchModel, hne, htype, hkw, hfind, TaskTypeGenerate]
  · intro m htype hfind
    have hgen : taskType ≠ TaskTypeGenerate := by
      rw [htype]
      decide
    simp [selectBestModel, switchModel, hne, htype, hgen, hfind,
      TaskTypeGenerate, TaskTypeChat]
  · intro hnone
    simp [selectBestModel, hne, hnone]

/-- Witness for the amended C8: a chat task picks the first
llama-but-not-code model; an unmatched type falls back to the first
model. -/
theorem selectBestModel_spec_witness :
    selectBestModel agentCE TaskTypeChat "hello" = defaultModelChoice agentCE
      ∧ selectBestModel
          { id := "w", name := "", description := "",
            models := ["codellama", "llama3"], configDefaultModel := none,
            type := "", state := sampleState } TaskTypeChat "hi" = "llama3" := by
  constructor
  · exact (selectBestModel_spec agentCE TaskTypeChat "hello" (by decide)).2.2 (by rfl)
  · exact (selectBestModel_spec
      { id := "w", name := "", description := "",
        models := ["codellama", "llama3"], configDefaultModel := none,
        type := "", state := sampleState } TaskTypeChat "hi" (by decide)).2.1
      "llama3" rfl (by rfl)

/-! ## Multi-step workflows (src/unnamed/part_005 lines 98-159)

`strings.ReplaceAll` is embedded as a fuel-indexed structural recursion
on character lists (the fuel `s.length` suffices because every step
consumes at least one character; the patterns built by
`replacePlaceholders` are never empty, so Go's empty-pattern edge case
does not arise). -/

/-- One left-to-right pass of `strings.ReplaceAll` with explicit fuel. -/
def strReplaceAllAux (pattern repl : List Char) : Nat → List Char → List Char
  | 0, s => s
  | _ + 1, [] => []
  | fuel + 1, c :: rest =>
    if !pattern.isEmpty && pattern.isPrefixOf (c :: rest) then
      repl ++ strReplaceAllAux pattern repl fuel ((c :: rest).drop pattern.length)
    else
      c :: strReplaceAllAux pattern repl fuel rest

/-- `strings.ReplaceAll(s, pattern, repl)`. -/
def strReplaceAll (s pattern repl : String) : String :=
  ⟨strReplaceAllAux pattern.data repl.data s.data.length s.data⟩

/-- `replacePlaceholders` from src/unnamed/part_005: substitute every
`\x7b\x7bkey\x7d\x7d` occurrence with the key's value, iterating over the
context mapping. -/
def replacePlaceholders (input : String) (ctxt : List (String × String)) :
    String :=
  ctxt.foldl
    (fun acc kv => strReplaceAll acc ("\x7b\x7b" ++ kv.1 ++ "\x7d\x7d") kv.2)
    input

/-- A workflow step (`WorkflowStep` in the source). -/
structure WorkflowStep where
  name : String
  type : String
  input : String
  modelName : String
deriving Repr, DecidableEq

/-- The result of one workflow step (`WorkflowStepResult`). -/
structure WorkflowStepResult where
  name : String
  type : String
  input : String
  output : String
  modelUsed : String
  success : Bool
deriving Repr, DecidableEq

/-- The Go zero value of `WorkflowStepResult`, left in place for steps
after a failure. -/
def wfStepDefault : WorkflowStepResult :=
  ⟨"", "", "", "", "", false⟩

/-- The result of a workflow (`WorkflowResult`). -/
structure WorkflowResult where
  steps : List WorkflowStepResult
  success : Bool
  error : String
deriving Repr, DecidableEq

/-- The task built for one workflow step: substituted input, the step's
model or, when unset, the routing heuristic's choice. -/
def wfTask (agent : Agent) (stp : WorkflowStep) (input : String) : Task :=
  { id := "", type := stp.type, input := input,
    modelName :=
      if stp.modelName = "" then selectBestModel agent stp.type input
      else stp.modelName,
    agentID := agent.id }

/-- Recording of a completed step's output: under the 1-based positional
key `step<idx+1>` and under the step's own name (part_005 lines
135-136). -/
def wfCtxStep (ctxt : List (String × String)) (idx : Nat)
    (stp : WorkflowStep) (out : String) : List (String × String) :=
  mapInsert (mapInsert ctxt ("step" ++ toString (idx + 1)) out) stp.name out

/-- The loop of `MultiStepWorkflow`: carrying the context mapping and the
0-based step index, returning the step results, the success flag, the
error string, and the log of tasks handed to `ExecuteTask`. -/
def wfGo (exec : Task → Except String TaskResult) (agent : Agent) :
    List (String × String) → Nat → List WorkflowStep →
    List WorkflowStepResult × Bool × String × List Task
  | _, _, [] => ([], true, "", [])
  | ctxt, idx, stp :: rest =>
    match exec (wfTask agent stp (replacePlaceholders stp.input ctxt)) with
    | .error e =>
      (List.replicate (rest.length + 1) wfStepDefault, false,
        "Step " ++ toString (idx + 1) ++ " failed: " ++ e,
        [wfTask agent stp (replacePlaceholders stp.input ctxt)])
    | .ok r =>
      (⟨stp.name, stp.type, replacePlaceholders stp.input ctxt, r.output,
          r.modelUsed, true⟩
          :: (wfGo exec agent (wfCtxStep ctxt idx stp r.output) (idx + 1) rest).1,
        (wfGo exec agent (wfCtxStep ctxt idx stp r.output) (idx + 1) rest).2.1,
        (wfGo exec agent (wfCtxStep ctxt idx stp r.output) (idx + 1) rest).2.2.1,
        wfTask agent stp (replacePlaceholders stp.input ctxt)
          :: (wfGo exec agent (wfCtxStep ctxt idx stp r.output) (idx + 1) rest).2.2.2)

/-- `MultiStepWorkflow` from src/unnamed/part_005, together with the log
of tasks handed to `ExecuteTask`. -/
def multiStepWorkflow (exec : Task → Except String TaskResult)
    (agent : Agent) (steps : List WorkflowStep) :
    WorkflowResult × List Task :=
  ({ steps := (wfGo exec agent [] 0 steps).1,
     success := (wfGo exec agent [] 0 steps).2.1,
     error := (wfGo exec agent [] 0 steps).2.2.1 },
    (wfGo exec agent [] 0 steps).2.2.2)

/-- The context mapping described by claim C7: each completed step `j`
(listed with its recorded output) records its output under the 1-based
positional key and its own name, on top of the mapping `m`. -/
def claimCtx : Nat → List (WorkflowStep × String) → List (String × String) →
    List (String × String)
  | _, [], m => m
  | idx, (stp, out) :: rest, m =>
    claimCtx (idx + 1) rest (wfCtxStep m idx stp out)

lemma wfGo_input_spec (exec : Task → Except String TaskResult)
    (agent : Agent) :
    ∀ (steps : List WorkflowStep) (ctxt : List (String × String)) (idx i : Nat)
      (s : WorkflowStep),
      (wfGo exec agent ctxt idx steps).2.1 = true →
      steps[i]? = some s →
      ((wfGo exec agent ctxt idx steps).1[i]?).map (fun r => r.input)
        = some (replacePlaceholders s.input
            (claimCtx idx
              ((steps.take i).zip
                (((wfGo exec agent ctxt idx steps).1.take i).map
                  (fun r => r.output)))
              ctxt)) := by
  intro steps
  induction steps with
  | nil =>
    intro ctxt idx i s _ hget
    simp at hget
  | cons stp rest ih =>
    intro ctxt idx i s hsucc hget
    rcases hx : exec (wfTask agent stp (replacePlaceholders stp.input ctxt))
      with e | r
    · rw [show (wfGo exec agent ctxt idx (stp :: rest)).2.1 = false by
        simp [wfGo, hx]] at hsucc
      exact Bool.noConfusion hsucc
    · have hrec : (wfGo exec agent (wfCtxStep ctxt idx stp r.output)
          (idx + 1) rest).2.1 = true := by
        rw [show (wfGo exec agent ctxt idx (stp :: rest)).2.1
            = (wfGo exec agent (wfCtxStep ctxt idx stp r.output)
                (idx + 1) rest).2.1 by simp [wfGo, hx]] at hsucc
        exact hsucc
      cases i with
      | zero =>
        have hs : s = stp := by
          simpa using hget.symm
        subst hs
        simp [wfGo, hx, claimCtx]
      | succ j =>
        have hget2 : rest[j]? = some s := by
          simpa using hget
        have := ih (wfCtxStep ctxt idx stp r.output) (idx + 1) j s hrec hget2
        rw [show (wfGo exec agent ctxt idx (stp :: rest)).1
            = ⟨stp.name, stp.type, replacePlaceholders stp.input ctxt,
                r.output, r.modelUsed, true⟩
              :: (wfGo exec agent (wfCtxStep ctxt idx stp r.output)
                  (idx + 1) rest).1 by simp [wfGo, hx]]
        simpa [claimCtx] using this

lemma wfGo_log_input (exec : Task → Except String TaskResult)
    (agent : Agent) :
    ∀ (steps : List WorkflowStep) (ctxt : List (String × String)) (idx i : Nat),
      (wfGo exec agent ctxt idx steps).2.1 = true →
      (((wfGo exec agent ctxt idx steps).2.2.2)[i]?).map (fun t => t.input)
        = (((wfGo exec agent ctxt idx steps).1)[i]?).map (fun r => r.input) := by
  intro steps
  induction steps with
  | nil =>
    intro ctxt idx i _
    simp [wfGo]
  | cons stp rest ih =>
    intro ctxt idx i hsucc
    rcases hx : exec (wfTask agent stp (replacePlaceholders stp.input ctxt))
      with e | r
    · rw [show (wfGo exec agent ctxt idx (stp :: rest)).2.1 = false by
        simp [wfGo, hx]] at hsucc
      exact Bool.noConfusion hsucc
    · have hrec : (wfGo exec agent (wfCtxStep ctxt idx stp r.output)
          (idx + 1) rest).2.1 = true := by
        rw [show (wfGo exec agent ctxt idx (stp :: rest)).2.1
            = (wfGo exec agent (wfCtxStep ctxt idx stp r.output)
                (idx + 1) rest).2.1 by simp [wfGo, hx]] at hsucc
        exact hsucc
      cases i with
      | zero =>
        simp only [wfGo, hx]
        simp [wfTask]
      | succ j =>
        have := ih (wfCtxStep ctxt idx stp r.output) (idx + 1) j hrec
        simpa [wfGo, hx] using this

/-- Claim C7: in a workflow run in which every step completed, the input
recorded (and executed) for the step at position `i` is its template with
every placeholder substituted from the mapping in which each prior
completed step records its output under both its 1-based positional key
`step<j>` and its own name; moreover the tasks handed to `ExecuteTask`
carry exactly these substituted inputs. -/
theorem workflow_placeholder_spec (exec : Task → Except String TaskResult)
    (agent : Agent) (steps : List WorkflowStep)
    (hsucc : (multiStepWorkflow exec agent steps).1.success = true) :
    (∀ i s, steps[i]? = some s →
        (((multiStepWorkflow exec agent steps).1.steps[i]?).map
            (fun r => r.input))
          = some (replacePlaceholders s.input
              (claimCtx 0
                ((steps.take i).zip
                  (((multiStepWorkflow exec agent steps).1.steps.take i).map
                    (fun r => r.output)))
                [])))
      ∧ (∀ i : Nat, (((multiStepWorkflow exec agent steps).2)[i]?).map
            (fun t : Task => t.input)
          = (((multiStepWorkflow exec agent steps).1.steps[i]?).map
              (fun r : WorkflowStepResult => r.input))) := by
  constructor
  · intro i s hget
    exact wfGo_input_spec exec agent steps [] 0 i s hsucc hget
  · intro i
    exact wfGo_log_input exec agent steps [] 0 i hsucc

/-- The two-step workflow of the claim's concrete scenario: step 1
produces "42", step 2's template references `\x7b\x7bstep1\x7d\x7d`. -/
def steps42 : List WorkflowStep :=
  [⟨"s1", "generate", "seed", "m"⟩,
   ⟨"s2", "generate", "\x7b\x7bstep1\x7d\x7d", "m"⟩]

/-- A task executor whose every task outputs "42". -/
def exec42 : Task → Except String TaskResult :=
  fun t => .ok ⟨t.id, "42", t.modelName⟩

/-- Witness for C7: after step 1 outputs "42", the literal input recorded
and executed for step 2 is "42" verbatim. -/
theorem workflow_placeholder_spec_witness :
    (((multiStepWorkflow exec42 sampleAgent steps42).1.steps[1]?).map
        (fun r => r.input)) = some "42"
      ∧ (((multiStepWorkflow exec42 sampleAgent steps42).2)[1]?).map
          (fun t => t.input) = some "42" := by
  have h := workflow_placeholder_spec exec42 sampleAgent steps42 (by rfl)
  constructor
  · exact (h.1 1 ⟨"s2", "generate", "\x7b\x7bstep1\x7d\x7d", "m"⟩ (by rfl)).trans
      (by rfl)
  · exact (h.2 1).trans ((h.1 1 ⟨"s2", "generate", "\x7b\x7bstep1\x7d\x7d", "m"⟩
      (by rfl)).trans (by rfl))

/-! ## Conversations and messaging (engine.go lines 713-918)

The `Message` and `Conversation` struct declarations and the
message-type/conversation-status constants live in a file that is not
part of the corpus; their fields and the constants' roles are fully
determined by their uses in engine.go, and the constants' literal values
are irrelevant to every claim. -/

/-- Modelled from the spec: the task-delegation message type constant
(`MessageTypeTask`), whose declaration is outside the corpus; its string
value is irrelevant to the claims. -/
def MessageTypeTask : String := "task"

/-- Modelled from the spec: the active conversation status constant
(`ConversationStatusActive`), declared outside the corpus. -/
def ConversationStatusActive : String := "active"

/-- Modelled from the spec: the closed conversation status constant
(`ConversationStatusClosed`), declared outside the corpus. -/
def ConversationStatusClosed : String := "closed"

/-- An inter-agent message; fields as used by engine.go.  Of the free-form
`Context` map, engine.go reads `Context["task_type"]`, modelled as
`ctxTaskType`.  A zero `timestamp` models `Timestamp.IsZero()`. -/
structure Message where
  id : String := ""
  fromAgentID : String := ""
  toAgentID : String := ""
  content : String := ""
  type : String := ""
  ctxTaskType : Option String := none
  timestamp : Nat := 0
deriving Repr, DecidableEq

/-- A multi-agent conversation; fields as used by engine.go. -/
structure Conversation where
  id : String
  participants : List String
  messages : List Message
  status : String
  topic : String
  createdAt : Nat
  updatedAt : Nat
deriving Repr, DecidableEq

/-- The engine state relevant to messaging: the agent store and the
conversation table (name-keyed Go maps as association lists). -/
structure Engine where
  agents : List (String × Agent)
  conversations : List (String × Conversation)
deriving Repr, DecidableEq

/-- ID/timestamp assignment performed by `SendMessage` when unset
(`uuid.New()` modelled by the explicit `freshID`). -/
def fillMessage (msg : Message) (freshID : String) (now : Nat) : Message :=
  { msg with
    id := if msg.id = "" then freshID else msg.id
    timestamp := if msg.timestamp = 0 then now else msg.timestamp }

/-- `updateAgentState` applied to a stored agent, a no-op when the agent
is absent (mirroring the existence checks around each call site). -/
def updateAgentStateIn (eng : Engine) (agentID key value : String)
    (now : Nat) : Engine :=
  match List.lookup agentID eng.agents with
  | some agent =>
    { eng with
      agents := mapInsert eng.agents agentID
        { agent with state := updateAgentState agent.state key value now } }
  | none => eng

/-- Appending the message to the conversation log and stamping
`UpdatedAt` (engine.go lines 778-780). -/
def appendMessage (eng : Engine) (conversationID : String)
    (conv : Conversation) (m : Message) (now : Nat) : Engine :=
  { eng with
    conversations := mapInsert eng.conversations conversationID
      { conv with messages := conv.messages ++ [m], updatedAt := now } }

/-- The sender/receiver state updates of `SendMessage` (lines 782-790);
the receiver update happens only for a non-empty receiver that exists. -/
def sendStateUpdates (eng : Engine) (m : Message) (now : Nat) : Engine :=
  if m.toAgentID ≠ "" then
    updateAgentStateIn
      (updateAgentStateIn eng m.fromAgentID "message_sent" m.content now)
      m.toAgentID "message_received" m.content now
  else
    updateAgentStateIn eng m.fromAgentID "message_sent" m.content now

/-- The synchronous validations of `processTaskMessage` (lines 862-870):
missing receiver, then missing target agent.  The subsequent task
execution and response message run on a detached goroutine whose outcome
never reaches the `SendMessage` caller and is not modelled. -/
def processTaskMessageCheck (eng : Engine) (msg : Message) : Option String :=
  if msg.toAgentID = "" then
    some "task message must specify target agent"
  else
    match List.lookup msg.toAgentID eng.agents with
    | none => some ("target agent not found: " ++ msg.toAgentID)
    | some _ => none

/-- `SendMessage` from engine.go.  On success it returns the updated
engine together with the error (if any) that `processTaskMessage`
produced and `SendMessage` merely logged — the source writes it to the
log sink and still returns `nil`. -/
def sendMessage (eng : Engine) (conversationID : String) (msg : Message)
    (freshID : String) (now : Nat) :
    Except String (Engine × Option String) :=
  match List.lookup conversationID eng.conversations with
  | none => .error ("conversation not found: " ++ conversationID)
  | some conv =>
    if conv.status ≠ ConversationStatusActive then
      .error ("conversation is not active: " ++ conv.status)
    else
      match List.lookup msg.fromAgentID eng.agents with
      | none => .error ("sender agent not found: " ++ msg.fromAgentID)
      | some _ =>
        .ok (sendStateUpdates
              (appendMessage eng conversationID conv
                (fillMessage msg freshID now) now)
              (fillMessage msg freshID now) now,
          if msg.type = MessageTypeTask then
            processTaskMessageCheck
              (sendStateUpdates
                (appendMessage eng conversationID conv
                  (fillMessage msg freshID now) now)
                (fillMessage msg freshID now) now)
              (fillMessage msg freshID now)
          else none)

lemma lookup_mapInsert_self {α : Type} (m : List (String × α)) (k : String)
    (v : α) : List.lookup k (mapInsert m k v) = some v := by
  induction m with
  | nil => simp [mapInsert, List.lookup]
  | cons kv rest ih =>
    rcases kv with ⟨k0, v0⟩
    by_cases hk : k0 = k
    · subst hk
      have h1 : mapInsert ((k0, v0) :: rest) k0 v
          = (k0, v) :: rest.map (fun p => if p.1 = k0 then (k0, v) else p) := by
        simp [mapInsert]
      rw [h1]
      simp [List.lookup]
    · have hne : (k == k0) = false := by
        rw [beq_eq_false_iff_ne]
        exact fun h => hk h.symm
      cases hany : rest.any (fun p => p.1 = k) with
      | false =>
        have h1 : mapInsert ((k0, v0) :: rest) k v
            = (k0, v0) :: (rest ++ [(k, v)]) := by
          simp [mapInsert, hk, hany]
        have h2 : mapInsert rest k v = rest ++ [(k, v)] := by
          simp [mapInsert, hany]
        rw [h1]
        simp only [List.lookup, hne]
        rw [← h2]
        exact ih
      | true =>
        have h1 : mapInsert ((k0, v0) :: rest) k v
            = (k0, v0) :: rest.map (fun p => if p.1 = k then (k, v) else p) := by
          simp [mapInsert, hk, hany]
        have h2 : mapInsert rest k v
            = rest.map (fun p => if p.1 = k then (k, v) else p) := by
          simp [mapInsert, hany]
        rw [h1]
        simp only [List.lookup, hne]
        rw [← h2]
        exact ih

lemma updateAgentStateIn_conversations (eng : Engine)
    (agentID key value : String) (now : Nat) :
    (updateAgentStateIn eng agentID key value now).conversations
      = eng.conversations := by
  rcases h : List.lookup agentID eng.agents with _ | a
  · simp [updateAgentStateIn, h]
  · simp [updateAgentStateIn, h]

lemma sendStateUpdates_conversations (eng : Engine) (m : Message)
    (now : Nat) :
    (sendStateUpdates eng m now).conversations = eng.conversations := by
  unfold sendStateUpdates
  by_cases h : m.toAgentID ≠ ""
  · simp [h, updateAgentStateIn_conversations]
  · simp [h, updateAgentStateIn_conversations]

/-- Claim C10: `SendMessage` succeeds and appends the message whenever
the conversation exists and is active and the sender agent exists —
participant membership is never consulted (no hypothesis about the
participant list is needed). -/
theorem sendMessage_no_participant_check (eng : Engine)
    (conversationID : String) (msg : Message) (freshID : String) (now : Nat)
    (conv : Conversation) (agent : Agent)
    (hconv : List.lookup conversationID eng.conversations = some conv)
    (hactive : conv.status = ConversationStatusActive)
    (hsender : List.lookup msg.fromAgentID eng.agents = some agent) :
    ∃ engOut dlog,
      sendMessage eng conversationID msg freshID now = .ok (engOut, dlog)
        ∧ ∃ convOut,
            List.lookup conversationID engOut.conversations = some convOut
              ∧ convOut.messages
                = conv.messages ++ [fillMessage msg freshID now] := by
  have hne : ¬ conv.status ≠ ConversationStatusActive := by simp [hactive]
  have hsend : sendMessage eng conversationID msg freshID now
      = .ok (sendStateUpdates
            (appendMessage eng conversationID conv
              (fillMessage msg freshID now) now)
            (fillMessage msg freshID now) now,
          if msg.type = MessageTypeTask then
            processTaskMessageCheck
              (sendStateUpdates
                (appendMessage eng conversationID conv
                  (fillMessage msg freshID now) now)
                (fillMessage msg freshID now) now)
              (fillMessage msg freshID now)
          else none) := by
    simp only [sendMessage, hconv, hsender]
    rw [if_neg hne]
  refine ⟨_, _, hsend, ?_⟩
  refine ⟨{ conv with
      messages := conv.messages ++ [fillMessage msg freshID now],
      updatedAt := now }, ?_, rfl⟩
  rw [sendStateUpdates_conversations]
  simp only [appendMessage]
  exact lookup_mapInsert_self eng.conversations conversationID _

/-- The agent of the C9/C10 concrete scenarios. -/
def agentA : Agent :=
  { id := "A", name := "alice", description := "", models := ["m1"],
    configDefaultModel := none, type := "general", state := sampleState }

/-- The conversation of the C9/C10 concrete scenarios: active, with a
participant list that does not mention the sender `"A"`. -/
def convC9 : Conversation :=
  { id := "c1", participants := ["B", "C"], messages := [],
    status := ConversationStatusActive, topic := "t",
    createdAt := 0, updatedAt := 0 }

/-- The engine used for the C9 and C10 concrete scenarios. -/
def engC9 : Engine :=
  { agents := [("A", agentA)], conversations := [("c1", convC9)] }

/-- The receiverless task-delegation message of claim C9. -/
def msgC9 : Message :=
  { fromAgentID := "A", toAgentID := "", content := "do it",
    type := MessageTypeTask }

/-- Counterexample to C9: a task-delegation message with an empty
receiver does NOT make `SendMessage` fail — the call returns success,
and the "task message must specify target agent" error is only written
to the log. -/
theorem taskDelegation_counterexample :
    (sendMessage engC9 "c1" msgC9 "m-1" 7).toOption.map (fun p => p.2)
      = some (some "task message must specify target agent") := by
  rfl

/-- Claim C9 as amended: under an active conversation and an existing
sender, a task-delegation message with an empty receiver is appended to
the conversation and `SendMessage` returns success to its caller; the
"task message must specify target agent" error raised by
`processTaskMessage` is only logged, never returned. -/
theorem taskDelegation_missing_receiver_logged (eng : Engine)
    (conversationID : String) (msg : Message) (freshID : String) (now : Nat)
    (conv : Conversation) (agent : Agent)
    (hconv : List.lookup conversationID eng.conversations = some conv)
    (hactive : conv.status = ConversationStatusActive)
    (hsender : List.lookup msg.fromAgentID eng.agents = some agent)
    (htype : msg.type = MessageTypeTask)
    (hrecv : msg.toAgentID = "") :
    ∃ engOut,
      sendMessage eng conversationID msg freshID now
          = .ok (engOut, some "task message must specify target agent")
        ∧ ∃ convOut,
            List.lookup conversationID engOut.conversations = some convOut
              ∧ convOut.messages
                = conv.messages ++ [fillMessage msg freshID now] := by
  have hne : ¬ conv.status ≠ ConversationStatusActive := by simp [hactive]
  have hfill : (fillMessage msg freshID now).toAgentID = "" := hrecv
  have hsend : sendMessage eng conversationID msg freshID now
      = .ok (sendStateUpdates
            (appendMessage eng conversationID conv
              (fillMessage msg freshID now) now)
            (fillMessage msg freshID now) now,
          some "task message must specify target agent") := by
    simp only [sendMessage, hconv, hsender]
    rw [if_neg hne, if_pos htype]
    simp [processTaskMessageCheck, hfill]
  refine ⟨_, hsend, ?_⟩
  refine ⟨{ conv with
      messages := conv.messages ++ [fillMessage msg freshID now],
      updatedAt := now }, ?_, rfl⟩
  rw [sendStateUpdates_conversations]
  simp only [appendMessage]
  exact lookup_mapInsert_self eng.conversations conversationID _

/-- Witness for the amended C9: the concrete receiverless delegation is
appended and the call succeeds with the error only in the log. -/
theorem taskDelegation_missing_receiver_logged_witness :
    ∃ engOut,
      sendMessage engC9 "c1" msgC9 "m-1" 7
          = .ok (engOut, some "task message must specify target agent")
        ∧ ∃ convOut,
            List.lookup "c1" engOut.conversations = some convOut
              ∧ convOut.messages = convC9.messages ++ [fillMessage msgC9 "m-1" 7] :=
  taskDelegation_missing_receiver_logged engC9 "c1" msgC9 "m-1" 7
    convC9 agentA (by rfl) (by rfl) (by rfl) (by rfl) (by rfl)

/-- Witness for C10: the sender `"A"` is not among the participants
`["B", "C"]`, yet `SendMessage` succeeds and appends the message. -/
theorem sendMessage_no_participant_check_witness :
    ("A" ∈ convC9.participants → False)
      ∧ ∃ engOut dlog,
          sendMessage engC9 "c1" { fromAgentID := "A", content := "hi" } "m-2" 9
              = .ok (engOut, dlog)
            ∧ ∃ convOut,
                List.lookup "c1" engOut.conversations = some convOut
                  ∧ convOut.messages
                    = convC9.messages
                      ++ [fillMessage { fromAgentID := "A", content := "hi" } "m-2" 9] := by
  constructor
  · decide
  · exact sendMessage_no_participant_check engC9 "c1"
      { fromAgentID := "A", content := "hi" } "m-2" 9 convC9 agentA
      (by rfl) (by rfl) (by rfl)

end EchoOrch
